import Mathlib

/-!
# Rule lifecycle of banshee's web application (`webapp/rule.go`)

A shallow embedding of the three HTTP handlers `createRule`, `deleteRule` and
`editRule`, together with the collaborators they call: the relational store
(`db.Admin.DB()`), the rules cache (`db.Admin.RulesCache`), the metric index
(`db.Index.NumFilter`) and the field validators of package `models`.

A handler is a function from the state before the call (store and cache) and the
decoded inputs to an `Outcome`: the state after the call, the response written,
and the collaborator calls made, in program order.
-/

namespace Banshee

/-! ## Values -/

/-- Go's `float64` as its IEEE-754 binary64 fields: sign bit, 11 bit biased exponent,
52 bit fraction. -/
structure Float64 where
  sign : Bool
  exponent : Fin 2048
  mantissa : Fin 4503599627370496
  deriving DecidableEq, Repr

/-- Go's `x == 0` on a `float64`: true for positive and negative zero, false for every
other value (denormals, normals, infinities, NaN). -/
def Float64.eqZero (x : Float64) : Bool :=
  x.exponent.val == 0 && x.mantissa.val == 0

/-- Positive zero, the value of an unset `float64` field. -/
def Float64.zero : Float64 := ⟨false, ⟨0, by decide⟩, ⟨0, by decide⟩⟩

/-- Negative zero. -/
def Float64.negZero : Float64 := ⟨true, ⟨0, by decide⟩, ⟨0, by decide⟩⟩

/-- The double `1.0`: biased exponent 1023, fraction 0. -/
def Float64.one : Float64 := ⟨false, ⟨1023, by decide⟩, ⟨0, by decide⟩⟩

/-- Go's `len(s)` of a string: its length in bytes. -/
def len (s : String) : Int := (s.utf8ByteSize : Int)

/-- The `error` values returned by the validators of package `models`, by message. -/
abbrev GoError := String

/-- The request body of create and edit, `createRuleRequest` (rule.go 17-29). -/
structure createRuleRequest where
  Pattern : String
  TrendUp : Bool
  TrendDown : Bool
  ThresholdMax : Float64
  ThresholdMin : Float64
  Comment : String
  Level : Int
  Disabled : Bool
  DisabledFor : Int
  TrackIdle : Bool
  NeverFillZero : Bool
  deriving DecidableEq, Repr

/-- Modelled from the spec: `models.Project`, whose declaration is not in rule.go; only
its primary key is used by the handlers. -/
structure Project where
  ID : Int
  deriving DecidableEq, Repr

/-- Modelled from the spec: `models.Rule`, whose declaration is not in rule.go. The
fields are those rule.go reads and writes (lines 83-97, 134, 187-198) plus the derived
`NumMetrics` set by `SetNumMetrics`; `DisabledAt` is a timestamp. -/
structure Rule where
  ID : Int
  ProjectID : Int
  Pattern : String
  TrendUp : Bool
  TrendDown : Bool
  ThresholdMax : Float64
  ThresholdMin : Float64
  Comment : String
  Level : Int
  Disabled : Bool
  DisabledFor : Int
  DisabledAt : Int
  TrackIdle : Bool
  NeverFillZero : Bool
  NumMetrics : Int
  deriving DecidableEq, Repr

/-- The method `rule.SetNumMetrics(n)`: sets the derived count on the rule. -/
def Rule.SetNumMetrics (r : Rule) (n : Int) : Rule := { r with NumMetrics := n }

/-! ## Errors -/

/-- The extended result codes of `sqlite3.Error` that rule.go switches on, and any
other code. -/
inductive SqliteCode where
  | ErrConstraintNotNull
  | ErrConstraintPrimaryKey
  | ErrConstraintUnique
  | Other (code : Nat)
  deriving DecidableEq, Repr

/-- The errors a store call hands back: `gorm.RecordNotFound`, a `sqlite3.Error` with its
extended code, or any other error. -/
inductive DBError where
  | RecordNotFound
  | Sqlite (ExtendedCode : SqliteCode)
  | Unknown (msg : String)
  deriving DecidableEq, Repr

/-- The web errors rule.go responds with: the package constants it names, and the two
constructors `NewValidationWebError` and `NewUnexceptedWebError`. -/
inductive WebError where
  | ErrBadRequest
  | ErrProjectID
  | ErrRuleNoComment
  | ErrRuleNoCondition
  | ErrProjectNotFound
  | ErrNotNull
  | ErrPrimaryKey
  | ErrDuplicateRulePattern
  | ErrRuleNotFound
  | ErrRuleUpdateFailed
  | NewValidationWebError (err : GoError)
  | NewUnexceptedWebError (err : DBError)
  deriving DecidableEq, Repr

/-- What a handler writes to the response: `ResponseError(w, e)`, `ResponseJSONOK(w, rule)`,
or nothing at all (the success path of `deleteRule`). -/
inductive Response where
  | Error (e : WebError)
  | JSONOK (rule : Rule)
  | Nothing
  deriving DecidableEq, Repr

/-! ## The rule store -/

/-- Modelled from the spec: the relational store behind `db.Admin.DB()` (spec 4.2), as
the rows of its project table and of its rule table. -/
structure Store where
  projects : List Project
  rules : List Rule
  deriving DecidableEq, Repr

/-- The rule row with primary key `id`, if there is one. -/
def Store.findRule (st : Store) (id : Int) : Option Rule :=
  st.rules.find? (fun r => r.ID == id)

/-- The id auto-assignment gives the next inserted rule: one more than the largest id
in the table, and 1 in an empty table. -/
def Store.nextID (st : Store) : Int :=
  st.rules.foldl (fun m r => max m r.ID) 0 + 1

/-- Modelled from the spec: `findProjectByID`, the call `DB().First(proj, projectID)`;
fails with not-found if absent. -/
def Store.FirstProject (st : Store) (projectID : Int) : Except DBError Project :=
  match st.projects.find? (fun p => p.ID == projectID) with
  | some proj => .ok proj
  | none => .error .RecordNotFound

/-- Modelled from the spec: `create(rule) -> id`, the call `DB().Create(rule)`. The
insert is rejected with the unique-constraint code when a row already has the pattern,
and with the primary-key code when the rule brings an id of its own that a row already
has; a rule whose id is unset (0) gets `nextID`. On success the new table comes back
with the rule as inserted, its id filled in. -/
def Store.Create (st : Store) (rule : Rule) : Except DBError (Store × Rule) :=
  if st.rules.any (fun r => r.Pattern == rule.Pattern) then
    .error (.Sqlite .ErrConstraintUnique)
  else if rule.ID != 0 && st.rules.any (fun r => r.ID == rule.ID) then
    .error (.Sqlite .ErrConstraintPrimaryKey)
  else
    let row : Rule := if rule.ID == 0 then { rule with ID := st.nextID } else rule
    .ok ({ st with rules := st.rules ++ [row] }, row)

/-- Modelled from the spec: `findByID`, the call `DB().Where("id = ?", id).First(&rule)`;
fails with not-found if absent. -/
def Store.FirstRule (st : Store) (id : Int) : Except DBError Rule :=
  match st.findRule id with
  | some rule => .ok rule
  | none => .error .RecordNotFound

/-- Modelled from the spec: `update(rule)`, the call `DB().Save(rule)`. Fails with
not-found if the id no longer exists and with the unique-constraint code when another
row has the rule's pattern; otherwise the row with the rule's id is replaced. -/
def Store.Save (st : Store) (rule : Rule) : Except DBError Store :=
  match st.findRule rule.ID with
  | none => .error .RecordNotFound
  | some _ =>
    if st.rules.any (fun r => r.ID != rule.ID && r.Pattern == rule.Pattern) then
      .error (.Sqlite .ErrConstraintUnique)
    else
      .ok { st with rules := st.rules.map (fun r => if r.ID == rule.ID then rule else r) }

/-- The call `DB().Delete(&models.Rule{ID: id})` of rule.go 134, as gorm runs it. The
delete is by primary key: the rows whose id is `id` go, and no error is reported when no
row matches. A zero `id` is a blank primary key, for which gorm adds no condition to the
statement, so every rule row is deleted. -/
def Store.Delete (st : Store) (id : Int) : Except DBError Store :=
  if id == 0 then .ok { st with rules := [] }
  else .ok { st with rules := st.rules.filter (fun r => r.ID != id) }

/-! ## The rules cache -/

/-- Modelled from the spec: `db.Admin.RulesCache`, the in-memory mapping from rule id to
rule (spec 4.3), as its entries, each keyed by the rule's own id. -/
structure RulesCache where
  entries : List Rule
  deriving DecidableEq, Repr

/-- The cache lookup by id. -/
def RulesCache.Get (c : RulesCache) (id : Int) : Option Rule :=
  c.entries.find? (fun r => r.ID == id)

/-- Modelled from the spec: `put(rule)`, insert or overwrite. The entry is the rule as
it is when put. -/
def RulesCache.Put (c : RulesCache) (rule : Rule) : RulesCache :=
  ⟨rule :: c.entries.filter (fun r => r.ID != rule.ID)⟩

/-- Modelled from the spec: `delete(id)`, a no-op if absent. -/
def RulesCache.Delete (c : RulesCache) (id : Int) : RulesCache :=
  ⟨c.entries.filter (fun r => r.ID != id)⟩

/-! ## The handlers -/

/-- What the handlers reach through package-level names and the clock: the two
validators of package `models`, the metric index, and `time.Now()`. -/
structure Env where
  ValidateRulePattern : String → Option GoError
  ValidateRuleLevel : Int → Option GoError
  NumFilter : String → Int
  Now : Int

/-- The state the handlers share: the store and the rules cache of `db.Admin`. -/
structure State where
  store : Store
  cache : RulesCache
  deriving DecidableEq, Repr

/-- A call a handler makes on a collaborator. -/
inductive Call where
  | FirstProject (projectID : Int)
  | Create (rule : Rule)
  | Delete (id : Int)
  | FirstRule (id : Int)
  | Save (rule : Rule)
  | CachePut (rule : Rule)
  | CacheDelete (id : Int)
  | NumFilter (pattern : String)
  deriving DecidableEq, Repr

/-- The result of running a handler: the state it leaves, the response it wrote, and
the collaborator calls it made, first call first. -/
structure Outcome where
  state : State
  resp : Response
  calls : List Call
  deriving DecidableEq, Repr

/-- The condition test of rule.go 62 and 176: no trend flag is set and both thresholds
compare equal to 0. -/
def noCondition (req : createRuleRequest) : Bool :=
  !req.TrendUp && !req.TrendDown && req.ThresholdMax.eqZero && req.ThresholdMin.eqZero

/-- The rule literal of rule.go 83-97: the request's fields under the given project,
`DisabledAt` at the current time, and the fields the literal leaves out (`ID`,
`NumMetrics`) at their zero value. -/
def newRule (projectID : Int) (req : createRuleRequest) (now : Int) : Rule :=
  { ID := 0
    ProjectID := projectID
    Pattern := req.Pattern
    TrendUp := req.TrendUp
    TrendDown := req.TrendDown
    ThresholdMax := req.ThresholdMax
    ThresholdMin := req.ThresholdMin
    Comment := req.Comment
    Level := req.Level
    Disabled := req.Disabled
    DisabledFor := req.DisabledFor
    DisabledAt := now
    TrackIdle := req.TrackIdle
    NeverFillZero := req.NeverFillZero
    NumMetrics := 0 }

/-- The assignments of rule.go 187-198 on the rule read from the store: every field
but `ID`, `ProjectID` and `NumMetrics` is overwritten. -/
def editedRule (found : Rule) (req : createRuleRequest) (now : Int) : Rule :=
  { found with
    Comment := req.Comment
    Level := req.Level
    Pattern := req.Pattern
    TrendUp := req.TrendUp
    TrendDown := req.TrendDown
    ThresholdMax := req.ThresholdMax
    ThresholdMin := req.ThresholdMin
    Disabled := req.Disabled
    DisabledFor := req.DisabledFor
    DisabledAt := now
    TrackIdle := req.TrackIdle
    NeverFillZero := req.NeverFillZero }

/-- The handler `createRule` (rule.go 32-123). `idParam` is the outcome of
`strconv.Atoi(ps.ByName("id"))` and `body` that of `RequestBind(r, req)`, each `none`
when the call returned an error. -/
def createRule (env : Env) (s : State) (idParam : Option Int)
    (body : Option createRuleRequest) : Outcome :=
  match idParam with
  | none => ⟨s, .Error .ErrProjectID, []⟩
  | some projectID =>
  match body with
  | none => ⟨s, .Error .ErrBadRequest, []⟩
  | some req =>
  -- Validate
  match env.ValidateRulePattern req.Pattern with
  | some err => ⟨s, .Error (.NewValidationWebError err), []⟩
  | none =>
  if len req.Comment ≤ 0 then ⟨s, .Error .ErrRuleNoComment, []⟩
  else if projectID ≤ 0 then ⟨s, .Error .ErrProjectID, []⟩
  else if noCondition req then ⟨s, .Error .ErrRuleNoCondition, []⟩
  else
  match env.ValidateRuleLevel req.Level with
  | some err => ⟨s, .Error (.NewValidationWebError err), []⟩
  | none =>
  -- Find project.
  match s.store.FirstProject projectID with
  | .error .RecordNotFound => ⟨s, .Error .ErrProjectNotFound, [.FirstProject projectID]⟩
  | .error err => ⟨s, .Error (.NewUnexceptedWebError err), [.FirstProject projectID]⟩
  | .ok _ =>
  -- Create rule.
  let rule := newRule projectID req env.Now
  match s.store.Create rule with
  | .error (.Sqlite .ErrConstraintNotNull) =>
    ⟨s, .Error .ErrNotNull, [.FirstProject projectID, .Create rule]⟩
  | .error (.Sqlite .ErrConstraintPrimaryKey) =>
    ⟨s, .Error .ErrPrimaryKey, [.FirstProject projectID, .Create rule]⟩
  | .error (.Sqlite .ErrConstraintUnique) =>
    ⟨s, .Error .ErrDuplicateRulePattern, [.FirstProject projectID, .Create rule]⟩
  | .error err =>
    ⟨s, .Error (.NewUnexceptedWebError err), [.FirstProject projectID, .Create rule]⟩
  | .ok (store', created) =>
  -- Cache
  let cache' := s.cache.Put created
  -- Response
  ⟨⟨store', cache'⟩, .JSONOK (created.SetNumMetrics (env.NumFilter created.Pattern)),
    [.FirstProject projectID, .Create rule, .CachePut created, .NumFilter created.Pattern]⟩

/-- The handler `deleteRule` (rule.go 126-146). `idParam` is the outcome of
`strconv.Atoi(ps.ByName("id"))`, `none` when it returned an error. -/
def deleteRule (_env : Env) (s : State) (idParam : Option Int) : Outcome :=
  match idParam with
  | none => ⟨s, .Error .ErrProjectID, []⟩
  | some id =>
  -- Delete
  match s.store.Delete id with
  | .error .RecordNotFound => ⟨s, .Error .ErrRuleNotFound, [.Delete id]⟩
  | .error err => ⟨s, .Error (.NewUnexceptedWebError err), [.Delete id]⟩
  | .ok store' =>
  -- Cache
  ⟨⟨store', s.cache.Delete id⟩, .Nothing, [.Delete id, .CacheDelete id]⟩

/-- The handler `editRule` (rule.go 149-209). `idParam` is the outcome of
`strconv.Atoi(ps.ByName("id"))` and `body` that of `RequestBind(r, req)`, each `none`
when the call returned an error. -/
def editRule (env : Env) (s : State) (idParam : Option Int)
    (body : Option createRuleRequest) : Outcome :=
  match idParam with
  | none => ⟨s, .Error .ErrProjectID, []⟩
  | some id =>
  match body with
  | none => ⟨s, .Error .ErrBadRequest, []⟩
  | some req =>
  -- Validate
  match env.ValidateRulePattern req.Pattern with
  | some err => ⟨s, .Error (.NewValidationWebError err), []⟩
  | none =>
  match env.ValidateRuleLevel req.Level with
  | some err => ⟨s, .Error (.NewValidationWebError err), []⟩
  | none =>
  if len req.Comment ≤ 0 then ⟨s, .Error .ErrRuleNoComment, []⟩
  else if noCondition req then ⟨s, .Error .ErrRuleNoCondition, []⟩
  else
  match s.store.FirstRule id with
  | .error _ => ⟨s, .Error .ErrRuleNotFound, [.FirstRule id]⟩
  | .ok found =>
  let rule := editedRule found req env.Now
  match s.store.Save rule with
  | .error _ => ⟨s, .Error .ErrRuleUpdateFailed, [.FirstRule id, .Save rule]⟩
  | .ok store' =>
  -- Cache
  let cache' := (s.cache.Delete id).Put rule
  ⟨⟨store', cache'⟩, .JSONOK (rule.SetNumMetrics (env.NumFilter rule.Pattern)),
    [.FirstRule id, .Save rule, .CacheDelete id, .CachePut rule, .NumFilter rule.Pattern]⟩

/-! ## Cache and store agreement, reachable states -/

/-- The cache and the store agree: the cache has an entry for exactly the ids the rule
table holds, and each entry is the rule of that row. -/
def Consistent (s : State) : Prop :=
  ∀ id : Int, s.cache.Get id = s.store.findRule id

/-- The state of a fresh deployment holding the given projects: no rule row, no cache
entry. -/
def State.initial (projects : List Project) : State :=
  ⟨⟨projects, []⟩, ⟨[]⟩⟩

/-- One handler call, with any environment and any inputs, takes the first state to the
second. -/
inductive Step : State → State → Prop where
  | create (env : Env) (s : State) (idParam : Option Int) (body : Option createRuleRequest) :
      Step s (createRule env s idParam body).state
  | edit (env : Env) (s : State) (idParam : Option Int) (body : Option createRuleRequest) :
      Step s (editRule env s idParam body).state
  | delete (env : Env) (s : State) (idParam : Option Int) :
      Step s (deleteRule env s idParam).state

/-- The states a sequence of handler calls leads to from `s0`. -/
inductive Reachable (s0 : State) : State → Prop where
  | start : Reachable s0 s0
  | next {s t : State} : Reachable s0 s → Step s t → Reachable s0 t

/-- A call that writes to the store. -/
def Call.isStoreWrite : Call → Bool
  | .Create _ => true
  | .Delete _ => true
  | .Save _ => true
  | _ => false

/-- A call that changes the cache. -/
def Call.isCacheWrite : Call → Bool
  | .CachePut _ => true
  | .CacheDelete _ => true
  | _ => false

/-! ## Sample collaborators and inputs -/

/-- Modelled from the spec: `models.ValidateRulePattern`, which is not in rule.go; the
pattern is required and non-empty. -/
def sampleValidateRulePattern (pattern : String) : Option GoError :=
  if pattern = "" then some "pattern is empty" else none

/-- Modelled from the spec: `models.ValidateRuleLevel`, which is not in rule.go; the
level comes from the closed set low, middle, high, numbered 0, 1, 2. -/
def sampleValidateRuleLevel (level : Int) : Option GoError :=
  if level = 0 ∨ level = 1 ∨ level = 2 then none else some "invalid level"

/-- An environment with the sample validators, an index that reports 3 matches for
every pattern, and the clock at 1000. -/
def sampleEnv : Env :=
  ⟨sampleValidateRulePattern, sampleValidateRuleLevel, fun _ => 3, 1000⟩

/-- A valid request: pattern `svc.*.latency`, trend up, level low. -/
def sampleReq : createRuleRequest :=
  { Pattern := "svc.*.latency"
    TrendUp := true
    TrendDown := false
    ThresholdMax := Float64.zero
    ThresholdMin := Float64.zero
    Comment := "latency"
    Level := 0
    Disabled := false
    DisabledFor := 0
    TrackIdle := false
    NeverFillZero := false }

/-- The rule the store holds after `sampleReq` is created for project 1 in an empty
rule table. -/
def sampleRule : Rule :=
  { ID := 1
    ProjectID := 1
    Pattern := "svc.*.latency"
    TrendUp := true
    TrendDown := false
    ThresholdMax := Float64.zero
    ThresholdMin := Float64.zero
    Comment := "latency"
    Level := 0
    Disabled := false
    DisabledFor := 0
    DisabledAt := 1000
    TrackIdle := false
    NeverFillZero := false
    NumMetrics := 0 }

/-- A second valid request: pattern `svc.*.errors`, an upper threshold of 1.0, level
middle. -/
def otherReq : createRuleRequest :=
  { Pattern := "svc.*.errors"
    TrendUp := false
    TrendDown := false
    ThresholdMax := Float64.one
    ThresholdMin := Float64.zero
    Comment := "error rate"
    Level := 1
    Disabled := true
    DisabledFor := 30
    TrackIdle := true
    NeverFillZero := false }

/-- The sample request with its comment left empty. -/
def emptyCommentReq : createRuleRequest :=
  { sampleReq with Comment := "" }

/-- The sample request with its comment left empty and a level outside the set. -/
def emptyCommentBadLevelReq : createRuleRequest :=
  { sampleReq with Comment := "", Level := 7 }

/-- The sample request with no alerting condition (no trend flag, both thresholds 0)
and a level outside the set. -/
def noConditionBadLevelReq : createRuleRequest :=
  { sampleReq with TrendUp := false, Level := 7 }

/-- The sample request with no alerting condition and its comment left empty. -/
def noConditionEmptyCommentReq : createRuleRequest :=
  { sampleReq with TrendUp := false, Comment := "" }

/-- The sample request with no alerting condition, every other field valid. -/
def noConditionReq : createRuleRequest :=
  { sampleReq with TrendUp := false }

/-- The rule the store holds after `otherReq` is created for project 1 in a rule table
whose largest id is 1. -/
def otherRule : Rule :=
  { ID := 2
    ProjectID := 1
    Pattern := "svc.*.errors"
    TrendUp := false
    TrendDown := false
    ThresholdMax := Float64.one
    ThresholdMin := Float64.zero
    Comment := "error rate"
    Level := 1
    Disabled := true
    DisabledFor := 30
    DisabledAt := 1000
    TrackIdle := true
    NeverFillZero := false
    NumMetrics := 0 }

/-- A state with project 1, `sampleRule` in the rule table and the same rule cached. -/
def sampleState : State :=
  ⟨⟨[⟨1⟩], [sampleRule]⟩, ⟨[sampleRule]⟩⟩

/-- A state whose cache holds `sampleRule` although the rule table is empty. -/
def staleState : State :=
  ⟨⟨[⟨1⟩], []⟩, ⟨[sampleRule]⟩⟩

/-! ## Lemmas on the collaborators -/

theorem len_le_zero_iff (s : String) : len s ≤ 0 ↔ s = "" := by
  cases s with
  | mk cs =>
    simp only [len, String.utf8ByteSize_mk]
    constructor
    · intro h
      have h0 : String.utf8Len cs = 0 := by omega
      rw [String.utf8Len_eq_zero.1 h0]
    · intro h
      have hcs : cs = [] := by
        have := congrArg String.data h
        simpa using this
      subst hcs
      simp

theorem find_filter_ne (l : List Rule) (i j : Int) :
    (l.filter (fun r => r.ID != i)).find? (fun r => r.ID == j)
      = if j = i then none else l.find? (fun r => r.ID == j) := by
  rw [List.find?_filter]
  by_cases hji : j = i
  · subst hji
    rw [if_pos rfl, List.find?_eq_none]
    intro r _
    by_cases h : r.ID = j <;> simp [h]
  · rw [if_neg hji]
    congr 1
    funext a
    by_cases h : a.ID = j
    · have hai : ¬ a.ID = i := fun e => hji (h.symm.trans e)
      simp [h, hji]
    · simp [h]

theorem find_map_replace (l : List Rule) (rule : Rule) (j : Int) :
    (l.map (fun r => if r.ID == rule.ID then rule else r)).find? (fun r => r.ID == j)
      = if j = rule.ID then (l.find? (fun r => r.ID == j)).map (fun _ => rule)
        else l.find? (fun r => r.ID == j) := by
  induction l with
  | nil => simp
  | cons a t ih =>
    simp only [List.map_cons, List.find?_cons]
    by_cases har : a.ID = rule.ID
    · have e1 : (a.ID == rule.ID) = true := by simpa using har
      by_cases hj : j = rule.ID
      · have e2 : (rule.ID == j) = true := by simpa using hj.symm
        have e3 : (a.ID == j) = true := by simpa using har.trans hj.symm
        simp [e1, e2, e3, hj]
      · have e2 : (rule.ID == j) = false := by simpa using fun e => hj (Eq.symm e)
        have e3 : (a.ID == j) = false := by simpa using fun e => hj (e.symm.trans har)
        rw [ih]
        simp [e1, e2, e3, hj]
    · have e1 : (a.ID == rule.ID) = false := by simpa using har
      by_cases haj : a.ID = j
      · have e3 : (a.ID == j) = true := by simpa using haj
        have hj : ¬ j = rule.ID := fun e => har (haj.trans e)
        simp [e1, e3, hj]
      · have e3 : (a.ID == j) = false := by simpa using haj
        rw [ih]
        simp [e1, e3]

theorem foldl_max_ge (l : List Rule) (m : Int) :
    m ≤ l.foldl (fun m r => max m r.ID) m ∧
      ∀ r ∈ l, r.ID ≤ l.foldl (fun m r => max m r.ID) m := by
  induction l generalizing m with
  | nil => simp
  | cons a t ih =>
    simp only [List.foldl_cons, List.mem_cons, forall_eq_or_imp]
    have h1 := (ih (max m a.ID)).1
    have h2 := (ih (max m a.ID)).2
    refine ⟨le_trans (le_max_left _ _) h1, le_trans (le_max_right _ _) h1, h2⟩

theorem Store.lt_nextID (st : Store) (r : Rule) (h : r ∈ st.rules) : r.ID < st.nextID := by
  have := (foldl_max_ge st.rules 0).2 r h
  unfold Store.nextID
  omega

theorem Store.nextID_pos (st : Store) : 0 < st.nextID := by
  have := (foldl_max_ge st.rules 0).1
  unfold Store.nextID
  omega

theorem Store.findRule_nextID (st : Store) : st.findRule st.nextID = none := by
  unfold Store.findRule
  rw [List.find?_eq_none]
  intro r hr
  have := st.lt_nextID r hr
  simp
  omega

theorem Store.findRule_id {st : Store} {id : Int} {r : Rule} (h : st.findRule id = some r) :
    r.ID = id := by
  have := List.find?_some h
  simpa using this

theorem Store.findRule_mem {st : Store} {id : Int} {r : Rule} (h : st.findRule id = some r) :
    r ∈ st.rules :=
  List.mem_of_find?_eq_some h

theorem RulesCache.get_put (c : RulesCache) (rule : Rule) (id : Int) :
    (c.Put rule).Get id = if id = rule.ID then some rule else c.Get id := by
  unfold RulesCache.Put RulesCache.Get
  by_cases h : id = rule.ID
  · subst h
    have e : (rule.ID == rule.ID) = true := by simp
    simp only [List.find?_cons, e, if_true]
  · have e : (rule.ID == id) = false := by simpa using fun e => h (Eq.symm e)
    simp only [List.find?_cons, e, h, if_false]
    rw [find_filter_ne, if_neg h]

theorem RulesCache.get_delete (c : RulesCache) (i id : Int) :
    (c.Delete i).Get id = if id = i then none else c.Get id := by
  unfold RulesCache.Delete RulesCache.Get
  exact find_filter_ne _ _ _

theorem Store.create_ok {st st' : Store} {rule row : Rule}
    (h : st.Create rule = .ok (st', row)) :
    row = { rule with ID := row.ID } ∧ st'.projects = st.projects ∧
      st.findRule row.ID = none ∧ (rule.ID = 0 → row.ID = st.nextID) ∧
      (∀ r ∈ st.rules, r.Pattern ≠ rule.Pattern) ∧
      ∀ id, st'.findRule id = if id = row.ID then some row else st.findRule id := by
  unfold Store.Create at h
  split at h
  · cases h
  · rename_i hpat
    split at h
    · cases h
    · rename_i hpk
      simp only [Except.ok.injEq, Prod.mk.injEq] at h
      obtain ⟨hst, hrow⟩ := h
      have hnone : st.findRule row.ID = none := by
        by_cases h0 : rule.ID = 0
        · have : row.ID = st.nextID := by rw [← hrow]; simp [h0]
          rw [this]
          exact st.findRule_nextID
        · have : row = rule := by rw [← hrow]; simp [h0]
          rw [this]
          unfold Store.findRule
          rw [List.find?_eq_none]
          intro r hr
          have hpk2 : ∀ x ∈ st.rules, ¬ x.ID = rule.ID := by simpa [h0] using hpk
          simpa using hpk2 r hr
      refine ⟨?_, ?_, hnone, ?_, ?_, ?_⟩
      · rw [← hrow]
        by_cases h0 : rule.ID = 0 <;> simp [h0]
      · rw [← hst]
      · intro h0
        rw [← hrow]; simp [h0]
      · intro r hr
        have hpat2 : ∀ x ∈ st.rules, ¬ x.Pattern = rule.Pattern := by simpa using hpat
        exact hpat2 r hr
      · intro id
        have hfind : st'.findRule id
            = (st.findRule id).or (if row.ID = id then some row else none) := by
          rw [← hst]
          unfold Store.findRule
          rw [List.find?_append, hrow]
          congr 1
          by_cases e : row.ID = id <;> simp [List.find?_cons, e]
        rw [hfind]
        by_cases e : id = row.ID
        · subst e
          simp [hnone]
        · have e2 : ¬ row.ID = id := fun x => e x.symm
          simp [e, e2]

theorem Store.save_ok {st st' : Store} {rule : Rule} (h : st.Save rule = .ok st') :
    st'.projects = st.projects ∧ (∃ old, st.findRule rule.ID = some old) ∧
      ∀ id, st'.findRule id = if id = rule.ID then some rule else st.findRule id := by
  unfold Store.Save at h
  split at h
  · cases h
  · rename_i old hold
    split at h
    · cases h
    · simp only [Except.ok.injEq] at h
      refine ⟨by rw [← h], ⟨old, hold⟩, ?_⟩
      intro id
      rw [← h]
      unfold Store.findRule at hold ⊢
      simp only
      rw [find_map_replace]
      by_cases e : id = rule.ID
      · subst e
        simp [hold]
      · simp [e]

theorem Store.delete_zero (st : Store) : st.Delete 0 = .ok { st with rules := [] } := rfl

theorem Store.delete_nonzero (st : Store) {i : Int} (hi : i ≠ 0) :
    st.Delete i = .ok { st with rules := st.rules.filter (fun r => r.ID != i) } := by
  unfold Store.Delete
  have e : (i == 0) = false := by simpa using hi
  simp only [e, Bool.false_eq_true, if_false]

theorem Store.delete_total (st : Store) (i : Int) : ∃ st', st.Delete i = .ok st' := by
  by_cases hi : i = 0
  · subst hi
    exact ⟨_, st.delete_zero⟩
  · exact ⟨_, st.delete_nonzero hi⟩

theorem Store.delete_ok {st st' : Store} {i : Int} (hi : i ≠ 0) (h : st.Delete i = .ok st') :
    st'.projects = st.projects ∧
      ∀ id, st'.findRule id = if id = i then none else st.findRule id := by
  rw [st.delete_nonzero hi] at h
  simp only [Except.ok.injEq] at h
  refine ⟨by rw [← h], ?_⟩
  intro id
  rw [← h]
  unfold Store.findRule
  exact find_filter_ne _ _ _

theorem Store.delete_findRule_self {st st' : Store} {i : Int} (h : st.Delete i = .ok st') :
    st'.findRule i = none := by
  by_cases hi : i = 0
  · subst hi
    rw [st.delete_zero] at h
    simp only [Except.ok.injEq] at h
    rw [← h]
    rfl
  · rw [(Store.delete_ok hi h).2 i, if_pos rfl]

theorem Store.delete_twice {st st' : Store} {i : Int} (h : st.Delete i = .ok st') :
    st'.Delete i = .ok st' := by
  by_cases hi : i = 0
  · subst hi
    rw [st.delete_zero] at h
    simp only [Except.ok.injEq] at h
    rw [← h]
    rfl
  · rw [st.delete_nonzero hi] at h
    simp only [Except.ok.injEq] at h
    rw [st'.delete_nonzero hi, ← h]
    simp only [List.filter_filter, Bool.and_self]

theorem RulesCache.evict_twice (c : RulesCache) (i : Int) :
    (c.Delete i).Delete i = c.Delete i := by
  unfold RulesCache.Delete
  simp only [List.filter_filter, Bool.and_self]

theorem Store.firstRule_ok {st : Store} {i : Int} {r : Rule} (h : st.FirstRule i = .ok r) :
    st.findRule i = some r := by
  unfold Store.FirstRule at h
  split at h
  · rename_i rule hrule
    simp only [Except.ok.injEq] at h
    rw [hrule, h]
  · cases h

theorem Store.firstRule_absent {st : Store} {i : Int} (h : st.findRule i = none) :
    st.FirstRule i = .error .RecordNotFound := by
  unfold Store.FirstRule
  rw [h]

/-! ## The outcomes of the handlers -/

theorem createRule_cases (env : Env) (s : State) (idParam : Option Int)
    (body : Option createRuleRequest) :
    (∃ e calls, createRule env s idParam body = ⟨s, .Error e, calls⟩ ∧
        ∀ c ∈ calls, c.isCacheWrite = false) ∨
    (∃ pid req proj st' row, idParam = some pid ∧ body = some req ∧
        env.ValidateRulePattern req.Pattern = none ∧ ¬ len req.Comment ≤ 0 ∧ ¬ pid ≤ 0 ∧
        ¬ noCondition req = true ∧ env.ValidateRuleLevel req.Level = none ∧
        s.store.FirstProject pid = .ok proj ∧
        s.store.Create (newRule pid req env.Now) = .ok (st', row) ∧
        createRule env s idParam body =
          ⟨⟨st', s.cache.Put row⟩, .JSONOK (row.SetNumMetrics (env.NumFilter row.Pattern)),
            [.FirstProject pid, .Create (newRule pid req env.Now), .CachePut row,
              .NumFilter row.Pattern]⟩) := by
  unfold createRule
  repeat' split
  all_goals try dsimp only
  all_goals repeat' split
  all_goals first
    | (left; exact ⟨_, _, rfl, by simp [Call.isCacheWrite]⟩)
    | (right; exact ⟨_, _, _, _, _, rfl, rfl, by assumption, by assumption, by assumption,
        by assumption, by assumption, by assumption, by assumption, rfl⟩)

theorem editRule_cases (env : Env) (s : State) (idParam : Option Int)
    (body : Option createRuleRequest) :
    (∃ e calls, editRule env s idParam body = ⟨s, .Error e, calls⟩ ∧
        ∀ c ∈ calls, c.isCacheWrite = false) ∨
    (∃ id req found st', idParam = some id ∧ body = some req ∧
        env.ValidateRulePattern req.Pattern = none ∧
        env.ValidateRuleLevel req.Level = none ∧ ¬ len req.Comment ≤ 0 ∧
        ¬ noCondition req = true ∧ s.store.FirstRule id = .ok found ∧
        s.store.Save (editedRule found req env.Now) = .ok st' ∧
        editRule env s idParam body =
          ⟨⟨st', (s.cache.Delete id).Put (editedRule found req env.Now)⟩,
            .JSONOK ((editedRule found req env.Now).SetNumMetrics
              (env.NumFilter (editedRule found req env.Now).Pattern)),
            [.FirstRule id, .Save (editedRule found req env.Now), .CacheDelete id,
              .CachePut (editedRule found req env.Now),
              .NumFilter (editedRule found req env.Now).Pattern]⟩) := by
  unfold editRule
  repeat' split
  all_goals try dsimp only
  all_goals repeat' split
  all_goals first
    | (left; exact ⟨_, _, rfl, by simp [Call.isCacheWrite]⟩)
    | (right; exact ⟨_, _, _, _, rfl, rfl, by assumption, by assumption, by assumption,
        by assumption, by assumption, by assumption, rfl⟩)

theorem deleteRule_cases (env : Env) (s : State) (idParam : Option Int) :
    (∃ e calls, deleteRule env s idParam = ⟨s, .Error e, calls⟩ ∧
        ∀ c ∈ calls, c.isCacheWrite = false) ∨
    (∃ id st', idParam = some id ∧ s.store.Delete id = .ok st' ∧
        deleteRule env s idParam =
          ⟨⟨st', s.cache.Delete id⟩, .Nothing, [.Delete id, .CacheDelete id]⟩) := by
  unfold deleteRule
  repeat' split
  all_goals first
    | (left; exact ⟨_, _, rfl, by simp [Call.isCacheWrite]⟩)
    | (right; exact ⟨_, _, rfl, by assumption, rfl⟩)

theorem editedRule_ID (found : Rule) (req : createRuleRequest) (now : Int) :
    (editedRule found req now).ID = found.ID := rfl

theorem createRule_consistent (env : Env) (s : State) (idParam : Option Int)
    (body : Option createRuleRequest) (h : Consistent s) :
    Consistent (createRule env s idParam body).state := by
  rcases createRule_cases env s idParam body with
    ⟨e, calls, hout, _⟩ | ⟨pid, req, proj, st', row, _, _, _, _, _, _, _, _, hcreate, hout⟩
  · rw [hout]; exact h
  · rw [hout]
    intro id
    show (s.cache.Put row).Get id = st'.findRule id
    rw [RulesCache.get_put, (Store.create_ok hcreate).2.2.2.2.2 id, h id]

theorem editRule_consistent (env : Env) (s : State) (idParam : Option Int)
    (body : Option createRuleRequest) (h : Consistent s) :
    Consistent (editRule env s idParam body).state := by
  rcases editRule_cases env s idParam body with
    ⟨e, calls, hout, _⟩ | ⟨i, req, found, st', _, _, _, _, _, _, hfound, hsave, hout⟩
  · rw [hout]; exact h
  · rw [hout]
    intro id
    show ((s.cache.Delete i).Put (editedRule found req env.Now)).Get id = st'.findRule id
    have hid : found.ID = i := Store.findRule_id (Store.firstRule_ok hfound)
    rw [RulesCache.get_put, RulesCache.get_delete, (Store.save_ok hsave).2.2 id, h id,
      editedRule_ID, hid]
    by_cases e : id = i <;> simp [e]

theorem deleteRule_consistent (env : Env) (s : State) (idParam : Option Int)
    (h : Consistent s) (hid : idParam ≠ some 0) :
    Consistent (deleteRule env s idParam).state := by
  rcases deleteRule_cases env s idParam with ⟨e, calls, hout, _⟩ | ⟨i, st', hi, hdel, hout⟩
  · rw [hout]; exact h
  · rw [hout]
    have hi0 : i ≠ 0 := fun e => hid (e ▸ hi)
    intro id
    show (s.cache.Delete i).Get id = st'.findRule id
    rw [RulesCache.get_delete, (Store.delete_ok hi0 hdel).2 id, h id]

theorem initial_consistent (projects : List Project) : Consistent (State.initial projects) :=
  fun _ => rfl

theorem deleteRule_outcome (env : Env) (s : State) (id : Int) :
    ∃ st', s.store.Delete id = .ok st' ∧
      deleteRule env s (some id)
        = ⟨⟨st', s.cache.Delete id⟩, .Nothing, [.Delete id, .CacheDelete id]⟩ := by
  obtain ⟨st', hdel⟩ := s.store.delete_total id
  refine ⟨st', hdel, ?_⟩
  simp only [deleteRule, hdel]

/-! ## The claims -/

/-- C1 does not hold of `deleteRule` at id 0. The sample state is consistent: rule 1 is in
the rule table and in the cache. `deleteRule` with id 0 hands the store a rule whose
primary key is blank, the store deletes every rule row, and the eviction that follows
removes cache entry 0 only: afterwards the cache still maps id 1 and the rule table is
empty, so cache and store no longer agree. The same state is reached from the empty rule
table and empty cache by one create and that delete. -/
theorem deleteRule_zero_id_breaks_consistency :
    Consistent sampleState ∧
    (deleteRule sampleEnv sampleState (some 0)).resp = .Nothing ∧
    (deleteRule sampleEnv sampleState (some 0)).state.store.findRule 1 = none ∧
    (deleteRule sampleEnv sampleState (some 0)).state.cache.Get 1 = some sampleRule ∧
    ¬ Consistent (deleteRule sampleEnv sampleState (some 0)).state ∧
    (createRule sampleEnv (State.initial [⟨1⟩]) (some 1) (some sampleReq)).state
      = sampleState ∧
    Reachable (State.initial [⟨1⟩])
      (deleteRule sampleEnv
        (createRule sampleEnv (State.initial [⟨1⟩]) (some 1) (some sampleReq)).state
        (some 0)).state ∧
    ¬ Consistent
      (deleteRule sampleEnv
        (createRule sampleEnv (State.initial [⟨1⟩]) (some 1) (some sampleReq)).state
        (some 0)).state :=
  ⟨fun _ => rfl, by decide, by decide, by decide,
    fun h => absurd (h 1) (by decide),
    by decide,
    Reachable.next (Reachable.next Reachable.start (Step.create _ _ _ _)) (Step.delete _ _ _),
    fun h => absurd (h 1) (by decide)⟩

theorem noCondition_iff (req : createRuleRequest) :
    noCondition req = true ↔
      req.TrendUp = false ∧ req.TrendDown = false ∧ req.ThresholdMax.eqZero = true ∧
        req.ThresholdMin.eqZero = true := by
  unfold noCondition
  cases req.TrendUp <;> cases req.TrendDown <;> simp

/-- C2. `createRule` reports the first failing check in the order pattern, comment,
project id, condition, level: the pattern's validation error if the pattern is invalid;
otherwise `ErrRuleNoComment` if the comment is empty; otherwise `ErrProjectID` if
`projectID <= 0`; otherwise `ErrRuleNoCondition` if no trend flag is set and both
thresholds are 0; otherwise the level's validation error if the level is invalid. When
one of the five checks fails no collaborator is called at all, and when all five pass
the first call made is the project lookup in the store. -/
theorem createRule_first_failing_check (env : Env) (s : State) (projectID : Int)
    (req : createRuleRequest) :
    (∀ err, env.ValidateRulePattern req.Pattern = some err →
      (createRule env s (some projectID) (some req)).resp
        = .Error (.NewValidationWebError err)) ∧
    (env.ValidateRulePattern req.Pattern = none → req.Comment = "" →
      (createRule env s (some projectID) (some req)).resp = .Error .ErrRuleNoComment) ∧
    (env.ValidateRulePattern req.Pattern = none → req.Comment ≠ "" → projectID ≤ 0 →
      (createRule env s (some projectID) (some req)).resp = .Error .ErrProjectID) ∧
    (env.ValidateRulePattern req.Pattern = none → req.Comment ≠ "" → 0 < projectID →
      (req.TrendUp = false ∧ req.TrendDown = false ∧ req.ThresholdMax.eqZero = true ∧
        req.ThresholdMin.eqZero = true) →
      (createRule env s (some projectID) (some req)).resp = .Error .ErrRuleNoCondition) ∧
    (env.ValidateRulePattern req.Pattern = none → req.Comment ≠ "" → 0 < projectID →
      ¬ (req.TrendUp = false ∧ req.TrendDown = false ∧ req.ThresholdMax.eqZero = true ∧
        req.ThresholdMin.eqZero = true) →
      ∀ err, env.ValidateRuleLevel req.Level = some err →
      (createRule env s (some projectID) (some req)).resp
        = .Error (.NewValidationWebError err)) ∧
    ((env.ValidateRulePattern req.Pattern = none ∧ req.Comment ≠ "" ∧ 0 < projectID ∧
        ¬ (req.TrendUp = false ∧ req.TrendDown = false ∧ req.ThresholdMax.eqZero = true ∧
          req.ThresholdMin.eqZero = true) ∧
        env.ValidateRuleLevel req.Level = none) →
      (createRule env s (some projectID) (some req)).calls.head?
        = some (.FirstProject projectID)) ∧
    (¬ (env.ValidateRulePattern req.Pattern = none ∧ req.Comment ≠ "" ∧ 0 < projectID ∧
        ¬ (req.TrendUp = false ∧ req.TrendDown = false ∧ req.ThresholdMax.eqZero = true ∧
          req.ThresholdMin.eqZero = true) ∧
        env.ValidateRuleLevel req.Level = none) →
      (createRule env s (some projectID) (some req)).calls = []) := by
  rw [← noCondition_iff]
  refine ⟨?_, ?_, ?_, ?_, ?_, ?_, ?_⟩
  · intro err h
    simp [createRule, h]
  · intro h1 h2
    simp [createRule, h1, len_le_zero_iff, h2]
  · intro h1 h2 h3
    simp [createRule, h1, len_le_zero_iff, h2, h3]
  · intro h1 h2 h3 h4
    have h3' : ¬ projectID ≤ 0 := by omega
    simp [createRule, h1, len_le_zero_iff, h2, h3', h4]
  · intro h1 h2 h3 h4 err h5
    have h3' : ¬ projectID ≤ 0 := by omega
    simp [createRule, h1, len_le_zero_iff, h2, h3', h4, h5]
  · rintro ⟨h1, h2, h3, h4, h5⟩
    have h3' : ¬ projectID ≤ 0 := by omega
    simp only [createRule, h1, len_le_zero_iff, h2, h3', h4, h5, if_false,
      Bool.false_eq_true]
    repeat' split
    all_goals rfl
  · intro hnot
    unfold createRule
    simp only [len_le_zero_iff]
    repeat' split
    all_goals first
      | rfl
      | (exfalso
         apply hnot
         refine ⟨by assumption, by assumption, by omega, by assumption, by assumption⟩)

/-- C3, as the code has it. `editRule` reports the first failing check in the order
pattern, level, comment, condition: the pattern's validation error if the pattern is
invalid; otherwise the level's validation error if the level is invalid, whatever the
comment and the condition are; otherwise `ErrRuleNoComment` if the comment is empty;
otherwise `ErrRuleNoCondition` if no trend flag is set and both thresholds are 0. -/
theorem editRule_first_failing_check (env : Env) (s : State) (id : Int)
    (req : createRuleRequest) :
    (∀ err, env.ValidateRulePattern req.Pattern = some err →
      (editRule env s (some id) (some req)).resp = .Error (.NewValidationWebError err)) ∧
    (env.ValidateRulePattern req.Pattern = none →
      ∀ err, env.ValidateRuleLevel req.Level = some err →
      (editRule env s (some id) (some req)).resp = .Error (.NewValidationWebError err)) ∧
    (env.ValidateRulePattern req.Pattern = none → env.ValidateRuleLevel req.Level = none →
      req.Comment = "" →
      (editRule env s (some id) (some req)).resp = .Error .ErrRuleNoComment) ∧
    (env.ValidateRulePattern req.Pattern = none → env.ValidateRuleLevel req.Level = none →
      req.Comment ≠ "" →
      (req.TrendUp = false ∧ req.TrendDown = false ∧ req.ThresholdMax.eqZero = true ∧
        req.ThresholdMin.eqZero = true) →
      (editRule env s (some id) (some req)).resp = .Error .ErrRuleNoCondition) := by
  rw [← noCondition_iff]
  refine ⟨?_, ?_, ?_, ?_⟩
  · intro err h
    simp [editRule, h]
  · intro h1 err h2
    simp [editRule, h1, h2]
  · intro h1 h2 h3
    simp [editRule, h1, h2, len_le_zero_iff, h3]
  · intro h1 h2 h3 h4
    simp [editRule, h1, h2, len_le_zero_iff, h3, h4]

/-- C3 fails as stated. With the sample validators, an edit whose pattern is valid, whose
comment is empty and whose level is invalid is answered with the level's validation
error, not `ErrRuleNoComment`; and an edit whose pattern is valid, whose comment is not
empty, which has no alerting condition and whose level is invalid is answered with the
level's validation error, not `ErrRuleNoCondition`. -/
theorem editRule_level_precedes_comment_and_condition :
    (sampleEnv.ValidateRulePattern emptyCommentBadLevelReq.Pattern = none ∧
      emptyCommentBadLevelReq.Comment = "" ∧
      sampleEnv.ValidateRuleLevel emptyCommentBadLevelReq.Level = some "invalid level" ∧
      (editRule sampleEnv sampleState (some 1) (some emptyCommentBadLevelReq)).resp
        = .Error (.NewValidationWebError "invalid level") ∧
      (editRule sampleEnv sampleState (some 1) (some emptyCommentBadLevelReq)).resp
        ≠ .Error .ErrRuleNoComment) ∧
    (sampleEnv.ValidateRulePattern noConditionBadLevelReq.Pattern = none ∧
      noConditionBadLevelReq.Comment ≠ "" ∧ noCondition noConditionBadLevelReq = true ∧
      sampleEnv.ValidateRuleLevel noConditionBadLevelReq.Level = some "invalid level" ∧
      (editRule sampleEnv sampleState (some 1) (some noConditionBadLevelReq)).resp
        = .Error (.NewValidationWebError "invalid level") ∧
      (editRule sampleEnv sampleState (some 1) (some noConditionBadLevelReq)).resp
        ≠ .Error .ErrRuleNoCondition) := by
  decide

/-- C4, as the code has it. For a rule id that is not present in the store, `editRule`
answers every edit request, valid or not, with an error, leaves the store and the cache
unchanged and makes no writing call on the store and no call on the cache; the error is
`ErrRuleNotFound` when the request passes the four validation checks, which come before
the lookup of the rule. -/
theorem editRule_absent_id (env : Env) (s : State) (id : Int) (req : createRuleRequest)
    (h : s.store.findRule id = none) :
    (∃ e, (editRule env s (some id) (some req)).resp = .Error e) ∧
    (editRule env s (some id) (some req)).state = s ∧
    (∀ c ∈ (editRule env s (some id) (some req)).calls,
      c.isStoreWrite = false ∧ c.isCacheWrite = false) ∧
    (env.ValidateRulePattern req.Pattern = none → env.ValidateRuleLevel req.Level = none →
      req.Comment ≠ "" →
      ¬ (req.TrendUp = false ∧ req.TrendDown = false ∧ req.ThresholdMax.eqZero = true ∧
        req.ThresholdMin.eqZero = true) →
      (editRule env s (some id) (some req)).resp = .Error .ErrRuleNotFound) := by
  rw [← noCondition_iff]
  have hfirst := Store.firstRule_absent h
  refine ⟨?_, ?_, ?_, ?_⟩
  · simp only [editRule, hfirst]
    repeat' split
    all_goals exact ⟨_, rfl⟩
  · simp only [editRule, hfirst]
    repeat' split
    all_goals rfl
  · simp only [editRule, hfirst]
    repeat' split
    all_goals simp [Call.isStoreWrite, Call.isCacheWrite]
  · intro h1 h2 h3 h4
    simp [editRule, h1, h2, len_le_zero_iff, h3, h4, hfirst]

/-- The statement of C4 as amended at the sample state and id 2, which the store does not
hold: a valid edit is answered with `ErrRuleNotFound`. -/
theorem editRule_absent_id_witness :
    sampleState.store.findRule 2 = none ∧
    (editRule sampleEnv sampleState (some 2) (some otherReq)).resp
      = .Error .ErrRuleNotFound ∧
    (editRule sampleEnv sampleState (some 2) (some otherReq)).state = sampleState :=
  ⟨by decide,
    (editRule_absent_id sampleEnv sampleState 2 otherReq (by decide)).2.2.2
      (by decide) (by decide) (by decide) (by decide),
    (editRule_absent_id sampleEnv sampleState 2 otherReq (by decide)).2.1⟩

/-- C4 fails as stated. Rule id 2 is not in the store of the sample state, and the edit
whose comment is empty is answered with `ErrRuleNoComment`, not `ErrRuleNotFound`. -/
theorem editRule_absent_id_invalid_request :
    sampleState.store.findRule 2 = none ∧
    (editRule sampleEnv sampleState (some 2) (some emptyCommentReq)).resp
      = .Error .ErrRuleNoComment ∧
    (editRule sampleEnv sampleState (some 2) (some emptyCommentReq)).resp
      ≠ .Error .ErrRuleNotFound := by
  decide

/-- C5 against the code. The store's delete never reports not-found: for every rule id,
held by the store or not, `deleteRule` calls the store's delete and then the cache
eviction, answers with no error, and leaves the cache with no entry for the id whatever
it held before. So at an id the store does not hold, such as id 2 in the sample state or
id 1 in the state whose cache alone holds rule 1, the answer is not `ErrRuleNotFound`,
while the eviction does take place. -/
theorem deleteRule_absent_id_answers_success :
    (∀ (env : Env) (s : State) (id : Int),
      (deleteRule env s (some id)).resp = .Nothing ∧
      (deleteRule env s (some id)).calls = [.Delete id, .CacheDelete id] ∧
      (deleteRule env s (some id)).state.cache.Get id = none) ∧
    (sampleState.store.findRule 2 = none ∧
      (deleteRule sampleEnv sampleState (some 2)).resp = .Nothing ∧
      (deleteRule sampleEnv sampleState (some 2)).resp ≠ .Error .ErrRuleNotFound) ∧
    (staleState.store.findRule 1 = none ∧
      staleState.cache.Get 1 = some sampleRule ∧
      (deleteRule sampleEnv staleState (some 1)).resp = .Nothing ∧
      (deleteRule sampleEnv staleState (some 1)).state.cache.Get 1 = none) := by
  refine ⟨?_, by decide, by decide⟩
  intro env s id
  obtain ⟨st', _, hout⟩ := deleteRule_outcome env s id
  rw [hout]
  refine ⟨rfl, rfl, ?_⟩
  show (s.cache.Delete id).Get id = none
  rw [RulesCache.get_delete, if_pos rfl]

/-- C6, as the code has it. A create request with no trend flag set and both thresholds 0
is always rejected: `createRule` answers with an error, calls no collaborator and leaves
the state as it was. The error is `ErrRuleNoCondition`, for every level, every disabled
flag and every other field, whenever the three checks that come first pass: the pattern
is valid, the comment is not empty and the project id is positive. -/
theorem createRule_no_condition (env : Env) (s : State) (projectID : Int)
    (req : createRuleRequest)
    (h : req.TrendUp = false ∧ req.TrendDown = false ∧ req.ThresholdMax.eqZero = true ∧
      req.ThresholdMin.eqZero = true) :
    (∃ e, (createRule env s (some projectID) (some req)).resp = .Error e) ∧
    (createRule env s (some projectID) (some req)).state = s ∧
    (createRule env s (some projectID) (some req)).calls = [] ∧
    (env.ValidateRulePattern req.Pattern = none → req.Comment ≠ "" → 0 < projectID →
      (createRule env s (some projectID) (some req)).resp = .Error .ErrRuleNoCondition) := by
  rw [← noCondition_iff] at h
  refine ⟨?_, ?_, ?_, ?_⟩
  · unfold createRule
    simp only [h, if_true]
    repeat' split
    all_goals exact ⟨_, rfl⟩
  · unfold createRule
    simp only [h, if_true]
    repeat' split
    all_goals rfl
  · unfold createRule
    simp only [h, if_true]
    repeat' split
    all_goals rfl
  · intro h1 h2 h3
    have h3' : ¬ projectID ≤ 0 := by omega
    simp [createRule, h1, len_le_zero_iff, h2, h3', h]

/-- The statement of C6 as amended at the sample request with its trend flag cleared and
an invalid level: the answer is `ErrRuleNoCondition`. -/
theorem createRule_no_condition_witness :
    (noConditionBadLevelReq.TrendUp = false ∧ noConditionBadLevelReq.TrendDown = false ∧
      noConditionBadLevelReq.ThresholdMax.eqZero = true ∧
      noConditionBadLevelReq.ThresholdMin.eqZero = true) ∧
    (createRule sampleEnv sampleState (some 1) (some noConditionBadLevelReq)).resp
      = .Error .ErrRuleNoCondition :=
  ⟨by decide,
    (createRule_no_condition sampleEnv sampleState 1 noConditionBadLevelReq (by decide)).2.2.2
      (by decide) (by decide) (by decide)⟩

/-- C6 fails as stated. A create request with no trend flag set and both thresholds 0 is
answered with `ErrRuleNoComment` when its comment is empty, and with `ErrProjectID` when
the project id is 0, not with `ErrRuleNoCondition`. -/
theorem createRule_no_condition_other_error :
    (noConditionEmptyCommentReq.TrendUp = false ∧
      noConditionEmptyCommentReq.TrendDown = false ∧
      noConditionEmptyCommentReq.ThresholdMax.eqZero = true ∧
      noConditionEmptyCommentReq.ThresholdMin.eqZero = true ∧
      (createRule sampleEnv sampleState (some 1) (some noConditionEmptyCommentReq)).resp
        = .Error .ErrRuleNoComment) ∧
    (noConditionReq.TrendUp = false ∧ noConditionReq.TrendDown = false ∧
      noConditionReq.ThresholdMax.eqZero = true ∧
      noConditionReq.ThresholdMin.eqZero = true ∧
      (createRule sampleEnv sampleState (some 0) (some noConditionReq)).resp
        = .Error .ErrProjectID) := by
  decide

/-- C7. A create request that passes the five validation checks, for a project the store
holds, and whose pattern is that of a rule already in the store: the store rejects the
insert with its unique-constraint code, and `createRule` answers
`ErrDuplicateRulePattern`, makes no call on the cache and leaves the cache, and the
store with it, unchanged. -/
theorem createRule_duplicate_pattern (env : Env) (s : State) (projectID : Int)
    (req : createRuleRequest)
    (hpattern : env.ValidateRulePattern req.Pattern = none)
    (hcomment : req.Comment ≠ "")
    (hid : 0 < projectID)
    (hcond : ¬ (req.TrendUp = false ∧ req.TrendDown = false ∧
      req.ThresholdMax.eqZero = true ∧ req.ThresholdMin.eqZero = true))
    (hlevel : env.ValidateRuleLevel req.Level = none)
    (hproject : ∃ proj ∈ s.store.projects, proj.ID = projectID)
    (hdup : ∃ r ∈ s.store.rules, r.Pattern = req.Pattern) :
    s.store.Create (newRule projectID req env.Now) = .error (.Sqlite .ErrConstraintUnique) ∧
    (createRule env s (some projectID) (some req)).resp = .Error .ErrDuplicateRulePattern ∧
    (createRule env s (some projectID) (some req)).state.cache = s.cache ∧
    (createRule env s (some projectID) (some req)).state.store = s.store ∧
    (∀ c ∈ (createRule env s (some projectID) (some req)).calls, c.isCacheWrite = false) := by
  rw [← noCondition_iff] at hcond
  have hid' : ¬ projectID ≤ 0 := by omega
  have hcreate : s.store.Create (newRule projectID req env.Now)
      = .error (.Sqlite .ErrConstraintUnique) := by
    obtain ⟨r, hr, hrp⟩ := hdup
    have hany : (s.store.rules.any fun x => x.Pattern == (newRule projectID req env.Now).Pattern)
        = true := by
      rw [List.any_eq_true]
      exact ⟨r, hr, by simpa [newRule] using hrp⟩
    unfold Store.Create
    rw [if_pos hany]
  have hfirst : ∃ proj, s.store.FirstProject projectID = .ok proj := by
    obtain ⟨proj, hp, hpid⟩ := hproject
    unfold Store.FirstProject
    cases hfind : s.store.projects.find? (fun p => p.ID == projectID) with
    | some found => exact ⟨found, rfl⟩
    | none =>
      rw [List.find?_eq_none] at hfind
      exact absurd (by simpa using hpid) (hfind proj hp)
  obtain ⟨proj, hproj⟩ := hfirst
  have hout : createRule env s (some projectID) (some req)
      = ⟨s, .Error .ErrDuplicateRulePattern,
          [.FirstProject projectID, .Create (newRule projectID req env.Now)]⟩ := by
    simp only [createRule, hpattern, len_le_zero_iff, hcomment, hid', hcond, hlevel, hproj,
      hcreate, if_false, Bool.false_eq_true]
  rw [hout]
  refine ⟨hcreate, rfl, rfl, rfl, ?_⟩
  simp [Call.isCacheWrite]

/-- The statement of C7 at the sample state, which holds project 1 and a rule with the
pattern of the sample request. -/
theorem createRule_duplicate_pattern_witness :
    sampleEnv.ValidateRulePattern sampleReq.Pattern = none ∧ sampleReq.Comment ≠ "" ∧
    (∃ proj ∈ sampleState.store.projects, proj.ID = 1) ∧
    (∃ r ∈ sampleState.store.rules, r.Pattern = sampleReq.Pattern) ∧
    (createRule sampleEnv sampleState (some 1) (some sampleReq)).resp
      = .Error .ErrDuplicateRulePattern ∧
    (createRule sampleEnv sampleState (some 1) (some sampleReq)).state.cache
      = sampleState.cache :=
  ⟨by decide, by decide, ⟨⟨1⟩, by decide, rfl⟩, ⟨sampleRule, by decide, by decide⟩,
    (createRule_duplicate_pattern sampleEnv sampleState 1 sampleReq (by decide) (by decide)
      (by decide) (by decide) (by decide) ⟨⟨1⟩, by decide, rfl⟩
      ⟨sampleRule, by decide, by decide⟩).2.1,
    (createRule_duplicate_pattern sampleEnv sampleState 1 sampleReq (by decide) (by decide)
      (by decide) (by decide) (by decide) ⟨⟨1⟩, by decide, rfl⟩
      ⟨sampleRule, by decide, by decide⟩).2.2.1⟩

/-- C8. When `createRule` succeeds, answering with a rule, the id of that rule is the one
the store assigned (no row had it before), and the cache lookup by that id yields the
very rule the store now holds under it: its project id is the given one and its pattern,
trend flags, thresholds, comment, level, disabled flag, disabled-for, track-idle and
never-fill-zero are the request's values. -/
theorem createRule_success_cached (env : Env) (s : State) (projectID : Int)
    (req : createRuleRequest) (rule : Rule)
    (h : (createRule env s (some projectID) (some req)).resp = .JSONOK rule) :
    ∃ persisted : Rule,
      s.store.findRule rule.ID = none ∧
      (createRule env s (some projectID) (some req)).state.store.findRule rule.ID
        = some persisted ∧
      (createRule env s (some projectID) (some req)).state.cache.Get rule.ID
        = some persisted ∧
      persisted.ID = rule.ID ∧
      persisted.ProjectID = projectID ∧
      persisted.Pattern = req.Pattern ∧
      persisted.TrendUp = req.TrendUp ∧
      persisted.TrendDown = req.TrendDown ∧
      persisted.ThresholdMax = req.ThresholdMax ∧
      persisted.ThresholdMin = req.ThresholdMin ∧
      persisted.Comment = req.Comment ∧
      persisted.Level = req.Level ∧
      persisted.Disabled = req.Disabled ∧
      persisted.DisabledFor = req.DisabledFor ∧
      persisted.TrackIdle = req.TrackIdle ∧
      persisted.NeverFillZero = req.NeverFillZero := by
  rcases createRule_cases env s (some projectID) (some req) with
    ⟨e, calls, hout, _⟩ | ⟨pid, req', proj, st', row, hpid, hreq, _, _, _, _, _, _, hcreate, hout⟩
  · rw [hout] at h
    cases h
  · cases hpid
    cases hreq
    rw [hout] at h ⊢
    simp only [Response.JSONOK.injEq] at h
    obtain ⟨hrow, _, hfresh, _, _, hfind⟩ := Store.create_ok hcreate
    have hID : rule.ID = row.ID := by rw [← h]; rfl
    refine ⟨row, ?_, ?_, ?_, hID.symm, ?_⟩
    · rw [hID]; exact hfresh
    · show st'.findRule rule.ID = some row
      rw [hfind, if_pos hID]
    · show (s.cache.Put row).Get rule.ID = some row
      rw [RulesCache.get_put, if_pos hID]
    · rw [hrow]
      simp [newRule]

/-- The statement of C8 at the creation of the second sample request in the sample state:
the new rule gets id 2 and the cache holds it under that id. -/
theorem createRule_success_cached_witness :
    (createRule sampleEnv sampleState (some 1) (some otherReq)).resp
      = .JSONOK (otherRule.SetNumMetrics 3) ∧
    ∃ persisted : Rule,
      (createRule sampleEnv sampleState (some 1) (some otherReq)).state.cache.Get 2
        = some persisted ∧
      persisted.ProjectID = 1 ∧ persisted.Pattern = "svc.*.errors" :=
  ⟨by decide,
    match createRule_success_cached sampleEnv sampleState 1 otherReq
        (otherRule.SetNumMetrics 3) (by decide) with
    | ⟨persisted, _, _, hcache, _, hproj, hpat, _⟩ => ⟨persisted, hcache, hproj, hpat⟩⟩

/-- C9. When `editRule` succeeds, answering with a rule, the cache lookup by the edited
id yields the rule the store now holds under that id; its comment, level, pattern, trend
flags, thresholds, disabled flag, disabled-for, track-idle and never-fill-zero are all
the request's values, and its id and project id are those of the rule the store held
before the edit. -/
theorem editRule_success_cached (env : Env) (s : State) (id : Int)
    (req : createRuleRequest) (rule : Rule)
    (h : (editRule env s (some id) (some req)).resp = .JSONOK rule) :
    ∃ before after : Rule,
      s.store.findRule id = some before ∧
      (editRule env s (some id) (some req)).state.cache.Get id = some after ∧
      (editRule env s (some id) (some req)).state.store.findRule id = some after ∧
      after.ID = id ∧
      after.ID = before.ID ∧
      after.ProjectID = before.ProjectID ∧
      after.Comment = req.Comment ∧
      after.Level = req.Level ∧
      after.Pattern = req.Pattern ∧
      after.TrendUp = req.TrendUp ∧
      after.TrendDown = req.TrendDown ∧
      after.ThresholdMax = req.ThresholdMax ∧
      after.ThresholdMin = req.ThresholdMin ∧
      after.Disabled = req.Disabled ∧
      after.DisabledFor = req.DisabledFor ∧
      after.TrackIdle = req.TrackIdle ∧
      after.NeverFillZero = req.NeverFillZero := by
  rcases editRule_cases env s (some id) (some req) with
    ⟨e, calls, hout, _⟩ | ⟨i, req', found, st', hi, hreq, _, _, _, _, hfound, hsave, hout⟩
  · rw [hout] at h
    cases h
  · cases hi
    cases hreq
    rw [hout]
    have hbefore := Store.firstRule_ok hfound
    have hfid : found.ID = id := Store.findRule_id hbefore
    refine ⟨found, editedRule found req env.Now, hbefore, ?_, ?_, ?_, ?_⟩
    · show ((s.cache.Delete id).Put (editedRule found req env.Now)).Get id = _
      rw [RulesCache.get_put, editedRule_ID, hfid, if_pos rfl]
    · show st'.findRule id = _
      rw [(Store.save_ok hsave).2.2 id, editedRule_ID, hfid, if_pos rfl]
    · rw [editedRule_ID, hfid]
    · simp [editedRule]

/-- The statement of C9 at the edit of rule 1 of the sample state with the second sample
request: the cache then holds, under id 1, a rule of project 1 with the new pattern. -/
theorem editRule_success_cached_witness :
    (editRule sampleEnv sampleState (some 1) (some otherReq)).resp
      = .JSONOK ((editedRule sampleRule otherReq 1000).SetNumMetrics 3) ∧
    ∃ after : Rule,
      (editRule sampleEnv sampleState (some 1) (some otherReq)).state.cache.Get 1
        = some after ∧
      after.ID = 1 ∧ after.Pattern = "svc.*.errors" ∧ after.Comment = "error rate" :=
  ⟨by decide,
    match editRule_success_cached sampleEnv sampleState 1 otherReq
        ((editedRule sampleRule otherReq 1000).SetNumMetrics 3) (by decide) with
    | ⟨_, after, _, hcache, _, hid, _, _, hcomment, _, hpattern, _⟩ =>
      ⟨after, hcache, hid, hpattern, hcomment⟩⟩

/-- C10 against the code. For every rule id, `deleteRule` answers with no error, and after
it the cache lookup by that id returns absent and the store no longer holds the id. A
second `deleteRule` of the same id leaves the store and the cache exactly as the first
delete left them, but it answers with no error again, not with `ErrRuleNotFound`: so it
is for rule 1 of the sample state. -/
theorem deleteRule_second_delete_answers_success :
    (∀ (env env' : Env) (s : State) (id : Int),
      (deleteRule env s (some id)).resp = .Nothing ∧
      (deleteRule env s (some id)).state.cache.Get id = none ∧
      (deleteRule env s (some id)).state.store.findRule id = none ∧
      (deleteRule env' (deleteRule env s (some id)).state (some id)).resp = .Nothing ∧
      (deleteRule env' (deleteRule env s (some id)).state (some id)).state
        = (deleteRule env s (some id)).state) ∧
    (sampleState.store.findRule 1 = some sampleRule ∧
      (deleteRule sampleEnv sampleState (some 1)).resp = .Nothing ∧
      (deleteRule sampleEnv (deleteRule sampleEnv sampleState (some 1)).state (some 1)).resp
        = .Nothing ∧
      (deleteRule sampleEnv (deleteRule sampleEnv sampleState (some 1)).state (some 1)).resp
        ≠ .Error .ErrRuleNotFound) := by
  refine ⟨?_, by decide⟩
  intro env env' s id
  obtain ⟨st', hdel, hout⟩ := deleteRule_outcome env s id
  rw [hout]
  obtain ⟨st'', hdel', hout'⟩ := deleteRule_outcome env' ⟨st', s.cache.Delete id⟩ id
  have hst : st'' = st' := by
    have h2 : (⟨st', s.cache.Delete id⟩ : State).store.Delete id = .ok st' :=
      Store.delete_twice hdel
    rw [h2] at hdel'
    simp only [Except.ok.injEq] at hdel'
    exact hdel'.symm
  refine ⟨rfl, ?_, Store.delete_findRule_self hdel, ?_, ?_⟩
  · show (s.cache.Delete id).Get id = none
    rw [RulesCache.get_delete, if_pos rfl]
  · show (deleteRule env' ⟨st', s.cache.Delete id⟩ (some id)).resp = _
    rw [hout']
  · show (deleteRule env' ⟨st', s.cache.Delete id⟩ (some id)).state = _
    rw [hout', hst]
    show (⟨st', (s.cache.Delete id).Delete id⟩ : State) = _
    rw [RulesCache.evict_twice]

end Banshee
